import Mathlib

/-!
Verification of the hometown wind-turbine ETL pipeline
(extraction → transformation → consolidation).

Shallow embedding of the Python sources:
  src/extraction/extractors.py      (SigelExtractor)
  src/transformation/processors.py  (DataProcessor)
  src/transformation/geo_utils.py   (extract_coordinates)
  src/consolidation/consolidators.py (DataConsolidator)

Filesystem and network effects are made explicit: each embedded function
takes the relevant directory listing / remote responses as arguments, and
fallible reads are `Option` values (`none` = a read raised an exception).
-/

namespace Hometown

/-! ### Data model: features, attribute values, geometry

A remote feature is `{geometry: {x, y}, attributes: {named fields}}`.
Attribute values are modelled as the JSON scalars the code inspects:
null, integer, or string.  `x`/`y` may individually be absent from a
geometry object, and the whole `geometry` key may be absent from a
feature (`feature.get('geometry', {})` in `_json_to_geodataframe`).
-/

inductive AttrVal where
  | vNull
  | vInt (n : Int)
  | vStr (s : String)
  deriving DecidableEq, Repr

structure Geometry where
  x? : Option Rat
  y? : Option Rat
  deriving DecidableEq, Repr

structure Feature where
  attributes : List (String × AttrVal)
  geometry? : Option Geometry
  deriving DecidableEq, Repr

/-- Python dict lookup `attrs.get(k)` on the attribute mapping
(first binding wins, as dict keys are unique). -/
def lookupAttr (attrs : List (String × AttrVal)) (k : String) : Option AttrVal :=
  (attrs.find? (fun p => p.1 == k)).map (·.2)

/-- Python truthiness of an attribute value, as used by
`if 'DATA_ATUALIZACAO' in attrs and attrs['DATA_ATUALIZACAO']`:
null, 0 and the empty string are falsy. -/
def truthy : AttrVal → Bool
  | .vNull => false
  | .vInt n => n != 0
  | .vStr s => s != ""

/-- Python `int(v)`: succeeds on an int, parses an integer-shaped string,
fails (raises ValueError/TypeError, caught by the `continue`) otherwise. -/
def parseIntVal : AttrVal → Option Int
  | .vNull => none
  | .vInt n => some n
  | .vStr s => s.toInt?

/-! ### Extraction: freshness marker (`_extract_latest_update_date`,
`check_data_freshness` in extractors.py) -/

/-- The list comprehension in `_extract_latest_update_date`: values of the
`DATA_ATUALIZACAO` attribute that are present, truthy and parse as int. -/
def updateDates (features : List Feature) : List Int :=
  features.filterMap fun f =>
    match lookupAttr f.attributes "DATA_ATUALIZACAO" with
    | some v => if truthy v then parseIntVal v else none
    | none => none

/-- `_extract_latest_update_date`: `max(update_dates) if update_dates else 0`
(the early `return 0` for an empty feature list coincides with the
empty-dates case). -/
def extractLatestUpdateDate (features : List Feature) : Int :=
  match updateDates features with
  | [] => 0
  | d :: ds => ds.foldl max d

/-- The persisted extraction metadata record
(`extraction_metadata.json`); only the fields the freshness check reads. -/
structure ExtractionMetadata where
  apiLatestUpdate : Int
  totalRecords : Int
  deriving DecidableEq, Repr

/-- `last_extraction_info.get('api_latest_update', 0)`: a missing or
unreadable metadata file yields the empty dict, hence marker 0. -/
def persistedMarker (meta : Option ExtractionMetadata) : Int :=
  match meta with
  | some m => m.apiLatestUpdate
  | none => 0

structure FreshnessResult where
  apiLatestUpdate : Int
  ourLastExtraction : Int
  needsRefresh : Bool
  deriving DecidableEq, Repr

/-- `check_data_freshness`: compare the freshly computed remote marker with
the persisted one; `needs_refresh = latest_update != last_update or
latest_update == 0`. -/
def checkDataFreshness (sample : List Feature) (meta : Option ExtractionMetadata) :
    FreshnessResult :=
  let latestUpdate := extractLatestUpdateDate sample
  let lastUpdate := persistedMarker meta
  { apiLatestUpdate := latestUpdate
    ourLastExtraction := lastUpdate
    needsRefresh := latestUpdate != lastUpdate || latestUpdate == 0 }

/-! ### Extraction: the page loop of `extract_all_data`

Per page the loop body (lines 202-220 of extractors.py) first calls
`_make_request` on the orchestrating thread — an exception there (raised by
`_make_request` after exhausting `max_retries`) propagates and aborts the
method — and only on success submits `_save_page_data` to the worker pool.
The collection loop (lines 223-231) catches exceptions of the *save*
futures only.  We model each page's externals: `fetch = none` means the
fetch exhausted its retries and raised; `saveOk = false` means the save
future raised. -/

structure PageSpec where
  fetch : Option (List Feature)  -- the page payload's features, none = fetch raised
  saveOk : Bool
  deriving DecidableEq, Repr

structure ExtractRun where
  /-- value returned by `extract_all_data`'s loop: the saved-file list on
  normal completion, or an error when an uncaught exception propagates. -/
  result : Except String (List Nat)
  /-- indices of pages whose fetch was attempted. -/
  attempted : List Nat
  /-- indices of pages whose file was persisted to disk (saves already
  submitted complete during executor shutdown even when the loop raises). -/
  savedToDisk : List Nat
  deriving Repr

/-- The page loop of `extract_all_data` from page index `i` on.  A page
with an empty (or absent) feature list is fetched but not saved; a page
whose save future raises is logged and omitted from `saved_files`; a page
whose fetch raises aborts the loop: pages after it are not attempted and
the method raises instead of returning the list (earlier pages' files stay
on disk — their save futures complete during executor shutdown — but no
list reaches the caller). -/
def extractLoopFrom : List PageSpec → Nat → ExtractRun
  | [], _ => { result := .ok [], attempted := [], savedToDisk := [] }
  | p :: rest, i =>
      match p.fetch with
      | none =>
          { result := .error "request failed after max retries",
            attempted := [i], savedToDisk := [] }
      | some feats =>
          let r := extractLoopFrom rest (i + 1)
          let save := !feats.isEmpty && p.saveOk
          { result := r.result.map (fun l => if save then i :: l else l),
            attempted := i :: r.attempted,
            savedToDisk := if save then i :: r.savedToDisk else r.savedToDisk }

/-- The whole page loop, pages indexed from 0. -/
def extractLoop (pages : List PageSpec) : ExtractRun :=
  extractLoopFrom pages 0

/-! ### Transformation: skip decision (`check_transformation_needed`,
processors.py lines 39-67)

Filesystem inputs are the directory listings: each discovered file is
represented by its modification time. -/

/-- Python `max(f.stat().st_mtime for f in files)` over a non-empty
listing (the code only evaluates it when the listing is non-empty;
the `[]` case is an unreachable default). -/
def maxMtime : List Int → Int
  | [] => 0
  | t :: ts => ts.foldl max t

/-- `check_transformation_needed`, reduced to its boolean: needs work
unless there are no raw JSON files, or the parquet listing is at least as
long as the JSON listing and its newest mtime strictly exceeds the newest
JSON mtime. -/
def checkTransformationNeeded (jsonMtimes parquetMtimes : List Int) : Bool :=
  if jsonMtimes.isEmpty then false
  else if parquetMtimes.length ≥ jsonMtimes.length then
    if maxMtime parquetMtimes > maxMtime jsonMtimes then false else true
  else true

/-! ### Transformation: JSON → table (`_json_to_geodataframe`,
`extract_coordinates`, `_save_geodataframe`) -/

/-- Effective x used by `points_from_xy([g.get('x', 0) ...])`: an absent
`geometry` key gives the empty dict, and `get('x', 0)` then yields 0. -/
def effX (f : Feature) : Rat :=
  match f.geometry? with
  | none => 0
  | some g => g.x?.getD 0

/-- Effective y, symmetric with `effX`. -/
def effY (f : Feature) : Rat :=
  match f.geometry? with
  | none => 0
  | some g => g.y?.getD 0

/-- One transformed record: longitude/latitude are `geometry.x` /
`geometry.y` of the point built by `points_from_xy`
(`extract_coordinates` in geo_utils.py). -/
structure TransformedRow where
  attributes : List (String × AttrVal)
  longitude : Rat
  latitude : Rat
  deriving DecidableEq, Repr

/-- The per-feature content of the transformed table. -/
def transformRow (f : Feature) : TransformedRow :=
  { attributes := f.attributes, longitude := effX f, latitude := effY f }

def transformRows (features : List Feature) : List TransformedRow :=
  features.map transformRow

/-- Column order of `pd.DataFrame(attributes_list)`: attribute keys in
order of first appearance across the feature records. -/
def attrColumns (features : List Feature) : List String :=
  features.foldl
    (fun acc f => f.attributes.foldl
      (fun acc2 kv => if kv.1 ∈ acc2 then acc2 else acc2 ++ [kv.1]) acc)
    []

/-- Pandas column assignment `df[c] = v`: an existing column keeps its
position, a new column is appended at the end. -/
def addColumn (cols : List String) (c : String) : List String :=
  if c ∈ cols then cols else cols ++ [c]

/-- Column order of a saved transformed file: `pd.DataFrame(attributes)`,
then `gpd.GeoDataFrame(..., geometry=...)` appends `geometry`, then
`extract_coordinates` assigns `longitude` and `latitude`, then
`_save_geodataframe` assigns `geometry_wkt` and drops `geometry`. -/
def transformedColumns (features : List Feature) : List String :=
  let base := attrColumns features
  let withGeom := addColumn base "geometry"
  let withLon := addColumn withGeom "longitude"
  let withLat := addColumn withLon "latitude"
  let withWkt := addColumn withLat "geometry_wkt"
  withWkt.erase "geometry"

/-! ### Transformation: `process_all_files` skip path (lines 154-173) -/

inductive TransformOutcome where
  | skipped (existing : List Int)      -- returns the existing parquet listing
  | transformed (jsonMtimes : List Int) -- proceeds to transform the raw files
  deriving DecidableEq, Repr

/-- The idempotency gate of `process_all_files`: unforced and no work
needed → return the existing parquet files, creating nothing; otherwise the
old parquets are cleaned up and every raw file is (re)processed. -/
def processAllFilesGate (jsonMtimes parquetMtimes : List Int) (force : Bool) :
    TransformOutcome :=
  if !force && !(checkTransformationNeeded jsonMtimes parquetMtimes) then
    .skipped parquetMtimes
  else
    .transformed jsonMtimes

/-! ### Consolidation: rows and the cleaning pipeline
(`clean_and_optimize_for_tableau`, consolidators.py lines 143-265)

A consolidated-table row is modelled by the typed fields the cleaning
steps inspect (the transformed schema carries all of them), plus a `tag`
distinguishing otherwise-equal rows.  `none` stands for a pandas missing
value (NaN/NaT).  `dataAtualizacao` holds the update date as an integer
ordinal after step (c)'s epoch-ms → date conversion (comparisons on it
mirror datetime comparisons at dedup time). -/

structure Row where
  tag : Nat
  ceg : Option String
  dataAtualizacao : Option Int
  potMW : Option Rat
  operacao : Option String
  latitude : Option Rat
  longitude : Option Rat
  deriving DecidableEq, Repr

/-- `df_clean[df_clean['POT_MW'] < 1000]`: a NaN comparison is False in
pandas, so a missing capacity is dropped. -/
def potKeep (r : Row) : Bool :=
  match r.potMW with
  | some c => c < 1000
  | none => false

def filterPot (rows : List Row) : List Row :=
  rows.filter potKeep

/-- `df_clean[df_clean['OPERACAO'].isin(['Sim', 'Não'])]`: `isin` is False
on NaN, so missing status is dropped along with any third value. -/
def operacaoKeep (r : Row) : Bool :=
  match r.operacao with
  | some s => s == "Sim" || s == "Não"
  | none => false

def filterOperacao (rows : List Row) : List Row :=
  rows.filter operacaoKeep

/-! Deduplication: `df_clean.groupby('CEG')['DATA_ATUALIZACAO'].idxmax()`
then `df_clean.loc[idx_maior_data]`.  `groupby` drops rows whose CEG is
missing; within a group `idxmax` skips missing dates and returns the first
position attaining the maximum.  The development only evaluates the dedup
where every row carries a date (a group that is entirely missing dates is
a pandas error path never reached on cleaned data). -/

/-- Rows of the group paired with their (present) dates, in table order. -/
def datedRows (rows : List Row) : List (Row × Int) :=
  rows.filterMap fun r => r.dataAtualizacao.map fun d => (r, d)

/-- `idxmax` over a dated group: the first row attaining the maximum date
(a strictly later row wins only with a strictly larger date). -/
def argmaxDated : List (Row × Int) → Option (Row × Int)
  | [] => none
  | p :: ps =>
      match argmaxDated ps with
      | none => some p
      | some q => if q.2 > p.2 then some q else some p

/-- `df_clean[df_clean['CEG'] == c]` for a concrete identifier. -/
def cegGroup (rows : List Row) (c : String) : List Row :=
  rows.filter fun r => r.ceg == some c

/-- The single row `idxmax` selects for identifier `c`. -/
def bestFor (rows : List Row) (c : String) : Option Row :=
  (argmaxDated (datedRows (cegGroup rows c))).map (·.1)

/-- Accumulate a row's (non-missing) CEG value if not seen yet. -/
def cegStep (acc : List String) (r : Row) : List String :=
  match r.ceg with
  | some c => if c ∈ acc then acc else acc ++ [c]
  | none => acc

/-- Distinct (non-missing) CEG values of the table, first appearance
first.  groupby's key order differs (sorted), but the claims are about the
selected row set, which is order-independent. -/
def cegsOf (rows : List Row) : List String :=
  rows.foldl cegStep []

/-- `df_clean.loc[idx_maior_data]`: one selected row per CEG group. -/
def dedupByCeg (rows : List Row) : List Row :=
  (cegsOf rows).filterMap (bestFor rows)

/-- The tail of `clean_and_optimize_for_tableau` in its fixed order:
capacity filter, then operational-status filter, then CEG dedup (the
earlier steps — dropping `geometry_wkt`, numeric coercion, date
conversion, column reorder, non-fatal validation — are already reflected
in the typed `Row` fields). -/
def cleanAndOptimize (rows : List Row) : List Row :=
  dedupByCeg (filterOperacao (filterPot rows))

/-! ### Consolidation: skip decision (`check_consolidation_needed`,
consolidators.py lines 36-108)

Inputs: per-parquet read outcomes (`none` = `pd.read_parquet` raised) in
discovery order, and the most recently modified CSV, when one exists, with
its path and its read outcome (`none` = `pd.read_csv` raised). -/

structure CsvInfo where
  path : String
  readCount? : Option Nat
  deriving DecidableEq, Repr

structure CheckResult where
  needsConsolidation : Bool
  existingCsv : Option String
  deriving DecidableEq, Repr

/-- Sum of the parquet row counts, `none` as soon as one read fails
(the code returns "needs consolidation" at the first failing file). -/
def sumCounts : List (Option Nat) → Option Nat
  | [] => some 0
  | none :: _ => none
  | some n :: rest => (sumCounts rest).map (n + ·)

/-- `check_consolidation_needed`: no parquet files → nothing to do; no CSV
→ consolidate; CSV unreadable or any parquet unreadable → consolidate;
otherwise skip exactly when the CSV row count equals the summed parquet
row counts (`existing_csv` is set only on that skip branch). -/
def checkConsolidationNeeded (parquetReads : List (Option Nat))
    (csv? : Option CsvInfo) : CheckResult :=
  match parquetReads with
  | [] => { needsConsolidation := false, existingCsv := none }
  | _ :: _ =>
      match csv? with
      | none => { needsConsolidation := true, existingCsv := none }
      | some csv =>
          match csv.readCount? with
          | none => { needsConsolidation := true, existingCsv := none }
          | some csvRecords =>
              match sumCounts parquetReads with
              | none => { needsConsolidation := true, existingCsv := none }
              | some expected =>
                  if csvRecords = expected then
                    { needsConsolidation := false, existingCsv := some csv.path }
                  else
                    { needsConsolidation := true, existingCsv := none }

/-! ### Consolidation: full pipeline (`load_and_combine_parquets`,
`consolidate_all`) -/

/-- `load_and_combine_parquets`: raises on an empty file list
(`DataProcessingError`) and on the first unreadable file; otherwise the
concatenation of all tables in filename-sorted order. -/
def loadAndCombineParquets (parquets : List (Option (List Row))) :
    Except String (List Row) :=
  match parquets with
  | [] => .error "Nenhum arquivo Parquet encontrado para consolidar"
  | _ :: _ => go parquets
where
  go : List (Option (List Row)) → Except String (List Row)
  | [] => .ok []
  | none :: _ => .error "Falha ao carregar parquet"
  | some rows :: rest => (go rest).map (rows ++ ·)

/-- `consolidate_all`: unforced, it consults `check_consolidation_needed`
over the same filesystem state and, when no consolidation is needed,
returns `check_result.get('existing_csv', '')`; otherwise (or when
forced) it loads, cleans and saves, returning the output path. -/
def consolidateAll (parquets : List (Option (List Row)))
    (csv? : Option CsvInfo) (outPath : String) (force : Bool) :
    Except String String :=
  let reads := parquets.map (Option.map List.length)
  if force then
    runConsolidation parquets outPath
  else
    let check := checkConsolidationNeeded reads csv?
    if check.needsConsolidation then runConsolidation parquets outPath
    else .ok (check.existingCsv.getD "")
where
  runConsolidation (parquets : List (Option (List Row))) (outPath : String) :
      Except String String := do
    let combined ← loadAndCombineParquets parquets
    let _cleaned := cleanAndOptimize combined
    pure outPath

/-! ## Theorems -/

/-! ### Generic helper lemmas -/

theorem le_foldl_max (d : Int) (ds : List Int) : d ≤ ds.foldl max d := by
  induction ds generalizing d with
  | nil => exact le_refl d
  | cons x xs ih => exact le_trans (le_max_left d x) (ih (max d x))

theorem mem_le_foldl_max {x : Int} {ds : List Int} (d : Int) (hx : x ∈ ds) :
    x ≤ ds.foldl max d := by
  induction ds generalizing d with
  | nil => cases hx
  | cons y ys ih =>
      rcases List.mem_cons.mp hx with rfl | h
      · exact le_trans (le_max_right d x) (le_foldl_max _ _)
      · exact ih _ h

theorem foldl_max_mem (ds : List Int) (d : Int) :
    ds.foldl max d = d ∨ ds.foldl max d ∈ ds := by
  induction ds generalizing d with
  | nil => exact Or.inl rfl
  | cons y ys ih =>
      rw [List.foldl_cons]
      rcases ih (max d y) with h | h
      · rcases le_total d y with hle | hle
        · rw [h, max_eq_right hle]; exact Or.inr (List.mem_cons_self _ _)
        · rw [h, max_eq_left hle]; exact Or.inl rfl
      · exact Or.inr (List.mem_cons_of_mem _ h)

/-! ### C3 — freshness decision -/

/-- C3: `check_data_freshness` refreshes exactly when the freshly computed
remote marker differs from the persisted marker or is 0, and the remote
marker is the maximum of the parseable (present, non-degenerate)
update-timestamp values of the sample — an upper bound attained by some
sample value whenever one exists, and 0 when none is present (including an
empty sample). -/
theorem freshness_decision (sample : List Feature) (meta : Option ExtractionMetadata) :
    ((checkDataFreshness sample meta).needsRefresh = true ↔
      extractLatestUpdateDate sample ≠ persistedMarker meta ∨
        extractLatestUpdateDate sample = 0)
    ∧ (∀ d ∈ updateDates sample, d ≤ extractLatestUpdateDate sample)
    ∧ (updateDates sample = [] → extractLatestUpdateDate sample = 0)
    ∧ (updateDates sample ≠ [] → extractLatestUpdateDate sample ∈ updateDates sample) := by
  refine ⟨?_, ?_, ?_, ?_⟩
  · simp [checkDataFreshness]
  · intro d hd
    unfold extractLatestUpdateDate
    rcases h : updateDates sample with _ | ⟨x, xs⟩
    · rw [h] at hd; cases hd
    · rw [h] at hd
      rcases List.mem_cons.mp hd with rfl | hmem
      · exact le_foldl_max _ _
      · exact mem_le_foldl_max _ hmem
  · intro h; unfold extractLatestUpdateDate; rw [h]
  · intro h
    unfold extractLatestUpdateDate
    rcases hu : updateDates sample with _ | ⟨x, xs⟩
    · exact absurd hu h
    · show List.foldl max x xs ∈ x :: xs
      rcases foldl_max_mem xs x with hx | hx
      · rw [hx]; exact List.mem_cons_self _ _
      · exact List.mem_cons_of_mem _ hx

/-- Witness for C3 at a concrete sample: two records with markers 5 and 9
against persisted marker 9 — no refresh is signalled, via the ↔. -/
theorem freshness_decision_witness :
    (checkDataFreshness
      [⟨[("DATA_ATUALIZACAO", .vInt 5)], none⟩,
       ⟨[("DATA_ATUALIZACAO", .vInt 9)], none⟩]
      (some ⟨9, 2⟩)).needsRefresh = false := by
  have h := (freshness_decision
    [⟨[("DATA_ATUALIZACAO", .vInt 5)], none⟩,
     ⟨[("DATA_ATUALIZACAO", .vInt 9)], none⟩]
    (some ⟨9, 2⟩)).1
  by_contra hne
  rcases h.mp (by simpa using hne) with h2 | h2
  · exact h2 (by decide)
  · exact absurd h2 (by decide)

/-! ### C4 — transformation skip decision -/

/-- C4: with at least one raw file and no force flag, `process_all_files`
returns the existing transformed files untouched exactly when the
transformed-file count is ≥ the raw-file count and the newest transformed
file is strictly newer than the newest raw file; in every other case it
proceeds to transform. -/
theorem transformation_skip (jsonMtimes parquetMtimes : List Int)
    (hj : jsonMtimes ≠ []) :
    (processAllFilesGate jsonMtimes parquetMtimes false = .skipped parquetMtimes ↔
      parquetMtimes.length ≥ jsonMtimes.length ∧
        maxMtime parquetMtimes > maxMtime jsonMtimes)
    ∧ (processAllFilesGate jsonMtimes parquetMtimes false ≠ .skipped parquetMtimes →
        processAllFilesGate jsonMtimes parquetMtimes false = .transformed jsonMtimes) := by
  constructor
  · unfold processAllFilesGate checkTransformationNeeded
    rcases jsonMtimes with _ | ⟨t, ts⟩
    · exact absurd rfl hj
    · simp only [List.isEmpty_cons, Bool.false_eq_true, if_false]
      by_cases hlen : parquetMtimes.length ≥ (t :: ts).length
      · simp only [hlen, if_true]
        by_cases hmt : maxMtime parquetMtimes > maxMtime (t :: ts)
        · simp [hmt]
        · simp [hmt]
      · simp [hlen]
  · intro hne
    unfold processAllFilesGate at *
    by_cases hc : checkTransformationNeeded jsonMtimes parquetMtimes
    · simp [hc]
    · simp [hc] at hne

/-- Witness for C4: one raw file (mtime 1), one transformed file
(mtime 2) — the stage skips and returns the existing file list. -/
theorem transformation_skip_witness :
    processAllFilesGate [1] [2] false = .skipped [2] :=
  (transformation_skip [1] [2] (by decide)).1.mpr (by constructor <;> decide)

/-! ### C7 — capacity filter strict threshold -/

/-- C7: a row carrying a capacity value passes the capacity filter exactly
when that value is strictly below 1000 — so a 999.999 row survives and a
row at exactly 1000 is dropped. -/
theorem capacity_filter_strict (rows : List Row) (r : Row) (c : Rat)
    (hc : r.potMW = some c) :
    r ∈ filterPot rows ↔ r ∈ rows ∧ c < 1000 := by
  simp [filterPot, List.mem_filter, potKeep, hc]

/-- Witness for C7: capacity 999.999 survives the filter and capacity
exactly 1000 is excluded, at concrete one-row tables. -/
theorem capacity_filter_strict_witness :
    ({ tag := 0, ceg := none, dataAtualizacao := none, potMW := some (999.999 : ℚ),
       operacao := none, latitude := none, longitude := none } : Row) ∈
      filterPot [{ tag := 0, ceg := none, dataAtualizacao := none,
                   potMW := some (999.999 : ℚ), operacao := none,
                   latitude := none, longitude := none }]
    ∧ ({ tag := 1, ceg := none, dataAtualizacao := none, potMW := some (1000 : ℚ),
         operacao := none, latitude := none, longitude := none } : Row) ∉
      filterPot [{ tag := 1, ceg := none, dataAtualizacao := none,
                   potMW := some (1000 : ℚ), operacao := none,
                   latitude := none, longitude := none }] := by
  constructor
  · exact (capacity_filter_strict _ _ _ rfl).mpr
      ⟨List.mem_singleton.mpr rfl, by norm_num⟩
  · intro hmem
    exact absurd ((capacity_filter_strict _ _ _ rfl).mp hmem).2 (by norm_num)

/-! ### C8 — capacity filter drops missing values -/

/-- C8: the capacity filter keeps a row exactly when its capacity is
present and strictly below 1000; in particular every row with a missing
(NaN) capacity is removed. -/
theorem capacity_filter_drops_missing (rows : List Row) (r : Row) :
    r ∈ filterPot rows ↔ r ∈ rows ∧ ∃ c, r.potMW = some c ∧ c < 1000 := by
  rcases hc : r.potMW with _ | c
  · simp [filterPot, List.mem_filter, potKeep, hc]
  · simp [filterPot, List.mem_filter, potKeep, hc]

/-! ### C9 — missing geometry coordinates become 0 -/

/-- C9: every feature is transformed into exactly one record, and a
feature whose geometry lacks `x` (resp. `y`) — including an entirely
absent geometry object — gets longitude 0 (resp. latitude 0) rather than
a missing value. -/
theorem missing_coordinates_become_zero (features : List Feature) (f : Feature)
    (hf : f ∈ features) :
    transformRow f ∈ transformRows features
    ∧ (f.geometry?.bind Geometry.x? = none → (transformRow f).longitude = 0)
    ∧ (f.geometry?.bind Geometry.y? = none → (transformRow f).latitude = 0) := by
  refine ⟨List.mem_map_of_mem _ hf, ?_, ?_⟩
  · intro hx
    rcases hg : f.geometry? with _ | g
    · simp [transformRow, effX, hg]
    · rw [hg] at hx
      simp at hx
      simp [transformRow, effX, hg, hx]
  · intro hy
    rcases hg : f.geometry? with _ | g
    · simp [transformRow, effY, hg]
    · rw [hg] at hy
      simp at hy
      simp [transformRow, effY, hg, hy]

/-- Witness for C9: a feature with no geometry object at all is
transformed to longitude 0 and latitude 0. -/
theorem missing_coordinates_become_zero_witness :
    (transformRow ⟨[("CEG", .vStr "w")], none⟩).longitude = 0
    ∧ (transformRow ⟨[("CEG", .vStr "w")], none⟩).latitude = 0 := by
  have h := missing_coordinates_become_zero [⟨[("CEG", .vStr "w")], none⟩]
    ⟨[("CEG", .vStr "w")], none⟩ (List.mem_singleton.mpr rfl)
  exact ⟨h.2.1 rfl, h.2.2 rfl⟩

/-! ### C10 — consolidation with zero transformed files -/

/-- C10: with no transformed files at all, the unforced pipeline does not
raise — the skip check reports nothing to do and `consolidate_all` returns
the empty output path — while a forced run with zero transformed files
raises the processing error of `load_and_combine_parquets`. -/
theorem consolidation_empty_inputs (csv? : Option CsvInfo) (outPath : String) :
    (checkConsolidationNeeded [] csv?).needsConsolidation = false
    ∧ consolidateAll [] csv? outPath false = .ok ""
    ∧ consolidateAll [] csv? outPath true =
        .error "Nenhum arquivo Parquet encontrado para consolidar" := by
  refine ⟨rfl, ?_, rfl⟩
  simp [consolidateAll, checkConsolidationNeeded]

/-! ### C1 — consolidation skip decision is exact on counts -/

theorem sumCounts_of_mem_none {l : List (Option Nat)} (h : none ∈ l) :
    sumCounts l = none := by
  induction l with
  | nil => cases h
  | cons x xs ih =>
      rcases x with _ | v
      · rfl
      · rcases List.mem_cons.mp h with h1 | h2
        · simp at h1
        · simp [sumCounts, ih h2]

theorem sumCounts_of_all_some {l : List (Option Nat)} (h : ∀ x ∈ l, x.isSome) :
    ∃ n, sumCounts l = some n := by
  induction l with
  | nil => exact ⟨0, rfl⟩
  | cons x xs ih =>
      rcases x with _ | v
      · exact absurd (h none (List.mem_cons_self _ _)) (by simp)
      · obtain ⟨n, hn⟩ := ih (fun y hy => h y (List.mem_cons_of_mem _ hy))
        exact ⟨v + n, by simp [sumCounts, hn]⟩

/-- C1: unforced, with at least one transformed file and an existing
consolidated output whose row count reads as `r`: when every transformed
file is readable their counts sum to some `total` and the skip decision is
exactly `r = total` (any difference in either direction forces
consolidation); when any transformed file fails to read, consolidation is
declared needed. -/
theorem consolidation_skip_exact (parquetReads : List (Option Nat)) (csv : CsvInfo)
    (r : Nat) (hp : parquetReads ≠ []) (hr : csv.readCount? = some r) :
    ((∀ x ∈ parquetReads, x.isSome) →
      ∃ total, sumCounts parquetReads = some total ∧
        ((checkConsolidationNeeded parquetReads (some csv)).needsConsolidation = false
          ↔ r = total))
    ∧ (none ∈ parquetReads →
        (checkConsolidationNeeded parquetReads (some csv)).needsConsolidation = true) := by
  rcases parquetReads with _ | ⟨p, ps⟩
  · exact absurd rfl hp
  constructor
  · intro hall
    obtain ⟨total, htot⟩ := sumCounts_of_all_some hall
    refine ⟨total, htot, ?_⟩
    simp only [checkConsolidationNeeded, hr, htot]
    by_cases h : r = total
    · simp [h]
    · simp [h]
  · intro hnone
    have hsum := sumCounts_of_mem_none hnone
    simp [checkConsolidationNeeded, hr, hsum]

/-- Witness for C1 at concrete inputs: two transformed files of 2 and 3
rows against a 5-row output — consolidation is skipped. -/
theorem consolidation_skip_exact_witness :
    (checkConsolidationNeeded [some 2, some 3]
      (some ⟨"aerogeradores_consolidado_x.csv", some 5⟩)).needsConsolidation = false := by
  obtain ⟨total, htot, hiff⟩ :=
    (consolidation_skip_exact [some 2, some 3]
      ⟨"aerogeradores_consolidado_x.csv", some 5⟩ 5 (by decide) rfl).1 (by decide)
  have ht : total = 5 := by
    have h5 : sumCounts [some 2, some 3] = some 5 := by decide
    exact Option.some.inj (htot.symm.trans h5)
  exact hiff.mpr ht.symm

/-! ### C2 — failure isolation in the extraction page loop -/

/-- Concrete run: page 0's fetch exhausts its retries, page 1 would fetch
and save fine. -/
def c2Pages : List PageSpec :=
  [{ fetch := none, saveOk := true },
   { fetch := some [⟨[("CEG", .vStr "a")], none⟩], saveOk := true }]

/-- C2 counterexample: when page 0's fetch exhausts its retry ceiling,
`extract_all_data` raises instead of returning a partial file list — page
1 is never attempted, its file is never persisted, and no list is returned
to the caller, contrary to the claim. -/
theorem extraction_partial_result_cex :
    (extractLoop c2Pages).result = .error "request failed after max retries"
    ∧ (extractLoop c2Pages).attempted = [0]
    ∧ (extractLoop c2Pages).savedToDisk = [] :=
  ⟨rfl, rfl, rfl⟩

theorem extractLoopFrom_all_ok (pages : List PageSpec) :
    ∀ i, (∀ p ∈ pages, p.fetch.isSome) →
      (extractLoopFrom pages i).result = .ok (extractLoopFrom pages i).savedToDisk
      ∧ (extractLoopFrom pages i).attempted = List.range' i pages.length := by
  induction pages with
  | nil => intro i _; exact ⟨rfl, rfl⟩
  | cons p rest ih =>
      intro i h
      rcases hf : p.fetch with _ | feats
      · exact absurd (h p (List.mem_cons_self _ _)) (by simp [hf])
      · have hrest := ih (i + 1) (fun q hq => h q (List.mem_cons_of_mem _ hq))
        have hstep : extractLoopFrom (p :: rest) i =
            { result := (extractLoopFrom rest (i + 1)).result.map
                (fun l => if !feats.isEmpty && p.saveOk then i :: l else l),
              attempted := i :: (extractLoopFrom rest (i + 1)).attempted,
              savedToDisk :=
                if !feats.isEmpty && p.saveOk then
                  i :: (extractLoopFrom rest (i + 1)).savedToDisk
                else (extractLoopFrom rest (i + 1)).savedToDisk } := by
          simp only [extractLoopFrom, hf]
        rw [hstep]
        constructor
        · rw [hrest.1]; rfl
        · show i :: (extractLoopFrom rest (i + 1)).attempted = _
          rw [hrest.2, List.length_cons, List.range'_succ]

theorem extractLoopFrom_fail (p : PageSpec) (hp : p.fetch = none)
    (post : List PageSpec) (pre : List PageSpec) :
    ∀ i, (∀ q ∈ pre, q.fetch.isSome) →
      (extractLoopFrom (pre ++ p :: post) i).result =
          .error "request failed after max retries"
      ∧ (extractLoopFrom (pre ++ p :: post) i).attempted =
          List.range' i (pre.length + 1)
      ∧ (extractLoopFrom (pre ++ p :: post) i).savedToDisk =
          (extractLoopFrom pre i).savedToDisk := by
  induction pre with
  | nil =>
      intro i _
      refine ⟨?_, ?_, ?_⟩ <;> simp [extractLoopFrom, hp, List.range']
  | cons q rest ih =>
      intro i h
      rcases hq : q.fetch with _ | feats
      · exact absurd (h q (List.mem_cons_self _ _)) (by simp [hq])
      · have hrest := ih (i + 1) (fun x hx => h x (List.mem_cons_of_mem _ hx))
        have hstep : ∀ (tail : List PageSpec), extractLoopFrom (q :: tail) i =
            { result := (extractLoopFrom tail (i + 1)).result.map
                (fun l => if !feats.isEmpty && q.saveOk then i :: l else l),
              attempted := i :: (extractLoopFrom tail (i + 1)).attempted,
              savedToDisk :=
                if !feats.isEmpty && q.saveOk then
                  i :: (extractLoopFrom tail (i + 1)).savedToDisk
                else (extractLoopFrom tail (i + 1)).savedToDisk } := by
          intro tail
          simp only [extractLoopFrom, hq]
        rw [List.cons_append, hstep (rest ++ p :: post), hstep rest]
        refine ⟨?_, ?_, ?_⟩
        · rw [hrest.1]; rfl
        · show i :: (extractLoopFrom (rest ++ p :: post) (i + 1)).attempted = _
          rw [hrest.2.1, List.length_cons, List.range'_succ, List.range'_succ, List.range'_succ]
        · rw [hrest.2.2]

/-- C2 amended: failure isolation holds for the save step only.  When
every page's fetch succeeds, the loop returns exactly the persisted file
list and attempts every page (a page whose save raises, or whose payload
is empty, is simply absent from the list).  But when one page's fetch
exhausts its retry ceiling, the exception propagates: pages before it are
attempted (and their saved files remain on disk), pages after it are never
attempted, and no file list is returned. -/
theorem extraction_failure_isolation (pages pre post : List PageSpec) (p : PageSpec) :
    ((∀ q ∈ pages, q.fetch.isSome) →
      (extractLoop pages).result = .ok (extractLoop pages).savedToDisk
      ∧ (extractLoop pages).attempted = List.range pages.length)
    ∧ (pages = pre ++ p :: post → p.fetch = none → (∀ q ∈ pre, q.fetch.isSome) →
        (extractLoop pages).result = .error "request failed after max retries"
        ∧ (extractLoop pages).attempted = List.range (pre.length + 1)
        ∧ (extractLoop pages).savedToDisk = (extractLoop pre).savedToDisk) := by
  constructor
  · intro h
    have := extractLoopFrom_all_ok pages 0 h
    exact ⟨this.1, by rw [extractLoop, this.2, List.range_eq_range']⟩
  · intro heq hp hpre
    subst heq
    have := extractLoopFrom_fail p hp post pre 0 hpre
    exact ⟨this.1, by rw [extractLoop, this.2.1, List.range_eq_range'], this.2.2⟩

/-- Witness for C2's amended theorem: a two-page run whose second page's
save future raises still returns, with page 0's file in the list and both
pages attempted. -/
theorem extraction_failure_isolation_witness :
    (extractLoop
        [{ fetch := some [⟨[("CEG", .vStr "a")], none⟩], saveOk := true },
         { fetch := some [⟨[("CEG", .vStr "b")], none⟩], saveOk := false }]).result =
      .ok [0]
    ∧ (extractLoop
        [{ fetch := some [⟨[("CEG", .vStr "a")], none⟩], saveOk := true },
         { fetch := some [⟨[("CEG", .vStr "b")], none⟩], saveOk := false }]).attempted =
      [0, 1] := by
  have h := (extraction_failure_isolation
    [{ fetch := some [⟨[("CEG", .vStr "a")], none⟩], saveOk := true },
     { fetch := some [⟨[("CEG", .vStr "b")], none⟩], saveOk := false }]
    [] [] ⟨none, true⟩).1 (by decide)
  refine ⟨?_, ?_⟩
  · rw [h.1]; rfl
  · rw [h.2]; rfl

/-! ### C6 — coordinate column position in transformed files -/

/-- One-feature raw payload with a single attribute column. -/
def c6Features : List Feature :=
  [{ attributes := [("CEG", .vStr "EOL.CV.028408-2")],
     geometry? := some { x? := some (-38), y? := some (-4) } }]

/-- C6 counterexample: the transformed file built from `c6Features` has
column order `[CEG, longitude, latitude, geometry_wkt]` — the coordinate
columns are appended after the attribute columns, not placed first, so its
first two columns are not the coordinates in either order. -/
theorem transformed_columns_cex :
    transformedColumns c6Features = ["CEG", "longitude", "latitude", "geometry_wkt"]
    ∧ (transformedColumns c6Features).take 2 ≠ ["latitude", "longitude"]
    ∧ (transformedColumns c6Features).take 2 ≠ ["longitude", "latitude"] := by
  refine ⟨by decide, by decide, by decide⟩

/-- C6 amended: in every transformed file whose attribute names do not
collide with the derived column names (the remote schema's fields never
do), the coordinate columns come right after all original attribute
columns, longitude then latitude, with the serialized geometry last — the
coordinates-first ordering is produced later, by the consolidation stage,
not in transformed files. -/
theorem transformed_columns_order (features : List Feature)
    (h1 : "geometry" ∉ attrColumns features)
    (h2 : "longitude" ∉ attrColumns features)
    (h3 : "latitude" ∉ attrColumns features)
    (h4 : "geometry_wkt" ∉ attrColumns features) :
    transformedColumns features =
      attrColumns features ++ ["longitude", "latitude", "geometry_wkt"] := by
  have hadd : ∀ (cols : List String) (c : String), c ∉ cols →
      addColumn cols c = cols ++ [c] := fun _ _ h => if_neg h
  have g2 : "longitude" ∉ attrColumns features ++ ["geometry"] := by
    simp [h2]
  have g3 : "latitude" ∉ (attrColumns features ++ ["geometry"]) ++ ["longitude"] := by
    simp [h3]
  have g4 : "geometry_wkt" ∉
      ((attrColumns features ++ ["geometry"]) ++ ["longitude"]) ++ ["latitude"] := by
    simp [h4]
  simp only [transformedColumns]
  rw [hadd _ _ h1, hadd _ _ g2, hadd _ _ g3, hadd _ _ g4]
  simp only [List.append_assoc, List.singleton_append, List.cons_append,
    List.nil_append]
  rw [List.erase_append_right _ h1, List.erase_cons_head]

/-- Witness for C6's amended theorem at the concrete one-feature payload. -/
theorem transformed_columns_order_witness :
    transformedColumns c6Features = ["CEG", "longitude", "latitude", "geometry_wkt"] := by
  have h := transformed_columns_order c6Features
    (by decide) (by decide) (by decide) (by decide)
  exact h.trans (by decide)

/-! ### C5 — deduplication keeps exactly one max-date row per CEG -/

theorem mem_datedRows {rows : List Row} {p : Row × Int} :
    p ∈ datedRows rows ↔ p.1 ∈ rows ∧ p.1.dataAtualizacao = some p.2 := by
  simp only [datedRows, List.mem_filterMap]
  constructor
  · rintro ⟨x, hx, hmap⟩
    rcases hd : x.dataAtualizacao with _ | d'
    · rw [hd] at hmap; simp at hmap
    · rw [hd] at hmap
      simp only [Option.map_some', Option.some.injEq] at hmap
      rw [← hmap]
      exact ⟨hx, hd⟩
  · rintro ⟨hp, hd⟩
    exact ⟨p.1, hp, by rw [hd]; rfl⟩

theorem argmaxDated_eq_none {l : List (Row × Int)} :
    argmaxDated l = none ↔ l = [] := by
  cases l with
  | nil => simp [argmaxDated]
  | cons p ps =>
      simp only [argmaxDated]
      rcases argmaxDated ps with _ | q
      · simp
      · by_cases h : q.2 > p.2 <;> simp [h]

theorem argmaxDated_mem {l : List (Row × Int)} {q : Row × Int}
    (h : argmaxDated l = some q) : q ∈ l := by
  induction l with
  | nil => cases h
  | cons p ps ih =>
      simp only [argmaxDated] at h
      rcases ha : argmaxDated ps with _ | q'
      · simp only [ha] at h
        obtain rfl := Option.some.inj h
        exact List.mem_cons_self _ _
      · simp only [ha] at h
        by_cases hgt : q'.2 > p.2
        · rw [if_pos hgt] at h
          obtain rfl := Option.some.inj h
          exact List.mem_cons_of_mem _ (ih ha)
        · rw [if_neg hgt] at h
          obtain rfl := Option.some.inj h
          exact List.mem_cons_self _ _

theorem argmaxDated_le {l : List (Row × Int)} :
    ∀ {q : Row × Int}, argmaxDated l = some q → ∀ p ∈ l, p.2 ≤ q.2 := by
  induction l with
  | nil => intro q h p hp; cases hp
  | cons p0 ps ih =>
      intro q h p hp
      simp only [argmaxDated] at h
      rcases ha : argmaxDated ps with _ | q'
      · have hps : ps = [] := argmaxDated_eq_none.mp ha
        simp only [ha] at h
        obtain rfl := Option.some.inj h
        subst hps
        rcases List.mem_cons.mp hp with rfl | h2
        · exact le_refl _
        · cases h2
      · simp only [ha] at h
        by_cases hgt : q'.2 > p0.2
        · rw [if_pos hgt] at h
          obtain rfl := Option.some.inj h
          rcases List.mem_cons.mp hp with rfl | h2
          · exact le_of_lt hgt
          · exact ih ha p h2
        · rw [if_neg hgt] at h
          obtain rfl := Option.some.inj h
          rcases List.mem_cons.mp hp with rfl | h2
          · exact le_refl _
          · exact le_trans (ih ha p h2) (not_lt.mp hgt)

theorem argmaxDated_isSome {l : List (Row × Int)} (h : l ≠ []) :
    (argmaxDated l).isSome := by
  rcases ha : argmaxDated l with _ | q
  · exact absurd (argmaxDated_eq_none.mp ha) h
  · rfl

theorem bestFor_ceg {rows : List Row} {c : String} {k : Row}
    (h : bestFor rows c = some k) : k.ceg = some c := by
  simp only [bestFor, Option.map_eq_some'] at h
  obtain ⟨q, hq, rfl⟩ := h
  have hmem := mem_datedRows.mp (argmaxDated_mem hq)
  have hfil := List.mem_filter.mp hmem.1
  simpa using hfil.2

theorem bestFor_spec {rows : List Row} {c : String} {r : Row} {d : Int}
    (hr : r ∈ rows) (hceg : r.ceg = some c) (hd : r.dataAtualizacao = some d) :
    ∃ k dk, bestFor rows c = some k ∧ k ∈ rows ∧ k.ceg = some c ∧
      k.dataAtualizacao = some dk ∧
      ∀ r' ∈ rows, r'.ceg = some c →
        ∀ d', r'.dataAtualizacao = some d' → d' ≤ dk := by
  have hrg : r ∈ cegGroup rows c := List.mem_filter.mpr ⟨hr, by simp [hceg]⟩
  have hrd : ((r, d) : Row × Int) ∈ datedRows (cegGroup rows c) :=
    mem_datedRows.mpr ⟨hrg, hd⟩
  obtain ⟨q, hq⟩ :=
    Option.isSome_iff_exists.mp (argmaxDated_isSome (List.ne_nil_of_mem hrd))
  have hqmem := mem_datedRows.mp (argmaxDated_mem hq)
  have hqfil := List.mem_filter.mp hqmem.1
  refine ⟨q.1, q.2, by simp [bestFor, hq], hqfil.1, by simpa using hqfil.2,
    hqmem.2, ?_⟩
  intro r' hr' hceg' d' hd'
  have hrg' : r' ∈ cegGroup rows c := List.mem_filter.mpr ⟨hr', by simp [hceg']⟩
  exact argmaxDated_le hq (r', d') (mem_datedRows.mpr ⟨hrg', hd'⟩)

theorem foldl_cegStep_mem (rows : List Row) :
    ∀ acc c, c ∈ rows.foldl cegStep acc ↔ c ∈ acc ∨ ∃ r ∈ rows, r.ceg = some c := by
  induction rows with
  | nil => simp
  | cons r rest ih =>
      intro acc c
      rw [List.foldl_cons, ih]
      constructor
      · rintro (h | ⟨r', hr', hceg'⟩)
        · rcases hr : r.ceg with _ | cr
          · simp only [cegStep, hr] at h
            exact Or.inl h
          · simp only [cegStep, hr] at h
            by_cases hin : cr ∈ acc
            · rw [if_pos hin] at h
              exact Or.inl h
            · rw [if_neg hin] at h
              rcases List.mem_append.mp h with h2 | h2
              · exact Or.inl h2
              · obtain rfl := List.mem_singleton.mp h2
                exact Or.inr ⟨r, List.mem_cons_self _ _, hr⟩
        · exact Or.inr ⟨r', List.mem_cons_of_mem _ hr', hceg'⟩
      · have hsub : ∀ x, x ∈ acc → x ∈ cegStep acc r := by
          intro x hx
          rcases hr : r.ceg with _ | cr
          · simpa [cegStep, hr] using hx
          · simp only [cegStep, hr]
            by_cases hin : cr ∈ acc
            · rw [if_pos hin]; exact hx
            · rw [if_neg hin]; exact List.mem_append_left _ hx
        rintro (h | ⟨r', hr', hceg'⟩)
        · exact Or.inl (hsub c h)
        · rcases List.mem_cons.mp hr' with rfl | hr2
          · left
            simp only [cegStep, hceg']
            by_cases hin : c ∈ acc
            · rw [if_pos hin]; exact hin
            · rw [if_neg hin]
              exact List.mem_append_right _ (List.mem_singleton.mpr rfl)
          · exact Or.inr ⟨r', hr2, hceg'⟩

theorem foldl_cegStep_nodup (rows : List Row) :
    ∀ acc, acc.Nodup → (rows.foldl cegStep acc).Nodup := by
  induction rows with
  | nil => intro acc h; exact h
  | cons r rest ih =>
      intro acc h
      rw [List.foldl_cons]
      apply ih
      rcases hr : r.ceg with _ | cr
      · simpa [cegStep, hr] using h
      · simp only [cegStep, hr]
        by_cases hin : cr ∈ acc
        · rw [if_pos hin]; exact h
        · rw [if_neg hin]
          simp [List.nodup_append, h, hin]

theorem countP_filterMap_bestFor (rows : List Row) :
    ∀ cs : List String, cs.Nodup → ∀ c ∈ cs, (bestFor rows c).isSome →
      (cs.filterMap (bestFor rows)).countP (fun r => r.ceg == some c) = 1 := by
  intro cs
  induction cs with
  | nil => intro _ c hc; cases hc
  | cons c0 cs ih =>
      intro hnd c hc hsome
      have hz : ∀ cs' : List String, c ∉ cs' →
          (cs'.filterMap (bestFor rows)).countP (fun r => r.ceg == some c) = 0 := by
        intro cs' hout
        rw [List.countP_eq_zero]
        intro r hrmem
        obtain ⟨c', hc', hbf⟩ := List.mem_filterMap.mp hrmem
        have hne : c' ≠ c := fun he => hout (he ▸ hc')
        simp [bestFor_ceg hbf, hne]
      rcases List.mem_cons.mp hc with rfl | hc'
      · obtain ⟨k, hk⟩ := Option.isSome_iff_exists.mp hsome
        rw [List.filterMap_cons, hk, List.countP_cons]
        have hpred : (k.ceg == some c) = true := by simp [bestFor_ceg hk]
        rw [hz cs (List.nodup_cons.mp hnd).1, hpred]
        rfl
      · have hne : c ≠ c0 := fun he => (List.nodup_cons.mp hnd).1 (he ▸ hc')
        rw [List.filterMap_cons]
        rcases hb0 : bestFor rows c0 with _ | k0
        · exact ih (List.nodup_cons.mp hnd).2 c hc' hsome
        · rw [List.countP_cons]
          have hpred : (k0.ceg == some c) = false := by
            simp [bestFor_ceg hb0, Ne.symm hne]
          rw [hpred, ih (List.nodup_cons.mp hnd).2 c hc' hsome]
          rfl

/-- C5: after the dedup step, for every facility identifier (CEG) present
in the input the output holds exactly one row with that identifier — a row
of the input whose update date is the maximum over all input rows sharing
the identifier (when several rows tie at the maximum, one of them is
kept). -/
theorem dedup_one_max_row_per_ceg (rows : List Row) (c : String)
    (hdates : ∀ r ∈ rows, r.dataAtualizacao.isSome)
    (hc : ∃ r ∈ rows, r.ceg = some c) :
    (dedupByCeg rows).countP (fun r => r.ceg == some c) = 1
    ∧ ∃ k ∈ dedupByCeg rows, k.ceg = some c ∧ k ∈ rows ∧
        ∃ dk, k.dataAtualizacao = some dk ∧
          ∀ r ∈ rows, r.ceg = some c →
            ∀ d, r.dataAtualizacao = some d → d ≤ dk := by
  obtain ⟨r, hr, hceg⟩ := hc
  obtain ⟨d, hd⟩ := Option.isSome_iff_exists.mp (hdates r hr)
  obtain ⟨k, dk, hbf, hkrows, hkceg, hkd, hmax⟩ := bestFor_spec hr hceg hd
  have hmemc : c ∈ cegsOf rows :=
    (foldl_cegStep_mem rows [] c).mpr (Or.inr ⟨r, hr, hceg⟩)
  constructor
  · exact countP_filterMap_bestFor rows (cegsOf rows)
      (foldl_cegStep_nodup rows [] List.nodup_nil) c hmemc (by simp [hbf])
  · exact ⟨k, List.mem_filterMap.mpr ⟨c, hmemc, hbf⟩, hkceg, hkrows, dk, hkd, hmax⟩

/-- Witness for C5: two rows sharing CEG "EOL1" with dates 10 and 20 —
after dedup exactly one "EOL1" row remains. -/
theorem dedup_one_max_row_per_ceg_witness :
    (dedupByCeg
      [{ tag := 0, ceg := some "EOL1", dataAtualizacao := some 10,
         potMW := some 2, operacao := some "Sim",
         latitude := some (-4), longitude := some (-38) },
       { tag := 1, ceg := some "EOL1", dataAtualizacao := some 20,
         potMW := some 2, operacao := some "Sim",
         latitude := some (-4), longitude := some (-38) }]).countP
      (fun r => r.ceg == some "EOL1") = 1 :=
  (dedup_one_max_row_per_ceg _ "EOL1" (by decide)
    ⟨{ tag := 0, ceg := some "EOL1", dataAtualizacao := some 10,
       potMW := some 2, operacao := some "Sim",
       latitude := some (-4), longitude := some (-38) },
     List.mem_cons_self _ _, rfl⟩).1

end Hometown
